import Mathlib

/-!
# Shallow embedding of the gstore-cache query-caching subsystem

The repository contains two generations of the query-cache module:

* `src/unnamed/part_000` — an early `queries.js` exposing `get`,
  `cacheQueryEntityKind` (variadic entity kinds, plain `set`, no redis-client
  guard) and `cleanQueriesEntityKind` (single entity kind, direct `smembers`).
  Its `get` contains the cache-bypass decision, the single/multi-store TTL
  resolution and the TTL-zero routing through the entity-kind index.
  We embed it in namespace `P0`.

* `src/lib/queries.js` — the later module exposing `wrap`, a guarded
  `cacheQueryEntityKind` with TTL options (`setex`/`set`), a multi-kind
  `cleanQueriesEntityKind` (atomic `multi` of `smembers`, deduplicated batched
  `del`) and the `marshalKeys`/`unMarshalKeys` transforms.
  We embed it in namespace `LibQ`.

Asynchronous store interactions are embedded by explicit inputs (the value the
cache read would return, the fetch handler's outcome, the store responses) and
an explicit trace of issued effects; promise rejection becomes `Except`.
`utils.js` (the TTL resolver `getTTL` and the query stringifier
`dsQueryToString`) is not part of the sources, so those two are modelled from
the spec where needed.
-/

deriving instance DecidableEq for Except

namespace GstoreCache

/-- A datastore query specification as the cache layer sees it: the entity
kinds it targets (`query.kinds`) and its canonical string form. -/
structure Query where
  kinds : List String
  qstr : String
deriving DecidableEq, Repr

/-- Modelled from the spec: `utils.datastore.dsQueryToString` lives in
`lib/utils.js`, which is not among the sources.  Per spec §4.1 it is a pure,
deterministic serialization of the query specification; we model it as reading
the query's canonical string form. -/
def dsQueryToString (q : Query) : String := q.qstr

/-- Cache configuration visible to the query modules:
`config.cachePrefix.queries`, `config.stores`, `config.global`,
`config.ttl.queries` and the optional per-store table
`config.ttl.stores[name].queries`. -/
structure Config where
  cachePrefixQueries : String
  stores : List String
  globalEnabled : Bool
  ttlQueries : Int
  ttlStores : Option (List (String × Int))
deriving Repr

/-- `addCachePrefixKeys(dsQueryToString(query))`: the cache key of a query. -/
def keyToString (c : Config) (q : Query) : String :=
  c.cachePrefixQueries ++ dsQueryToString q

/-- `config.ttl.stores && config.ttl.stores[name] && config.ttl.stores[name].queries`:
the per-store queries TTL, `none` when the table or the entry is absent. -/
def storeQueriesTTL (c : Config) (storeName : String) : Option Int :=
  c.ttlStores.bind (fun tbl => tbl.lookup storeName)

/-- The value `options.ttl` is set to: either a plain number or, with several
stores configured, the callable `(data, storeName) => ...` (the `data` argument
is ignored by the source, so we drop it). -/
inductive TTLValue where
  | fixed (t : Int)
  | perStore (f : String → Option Int)

/-- Whether a resolved TTL is the callable variant. -/
def TTLValue.isCallable : TTLValue → Bool
  | .fixed _ => false
  | .perStore _ => true

/-- Invoking the resolved TTL with a store name (a plain number is not
callable, hence `none`). -/
def TTLValue.apply : TTLValue → String → Option Int
  | .fixed _, _ => none
  | .perStore f, s => f s

/-- The JS test `ttl === -1`: true only for the plain number `-1`; a callable
is never `=== -1`. -/
def TTLValue.isNeverCache : TTLValue → Bool
  | .fixed t => t == -1
  | .perStore _ => false

/-- JS truthiness of an `options.ttl` slot holding a number or `undefined`:
`undefined` and `0` are falsy, every other number is truthy. -/
def ttlTruthy : Option Int → Bool
  | none => false
  | some t => t != 0

/-- The effects a call issues against its collaborators, in order. -/
inductive Effect (V : Type) where
  | cacheRead (key : String)
  | fetchCall
  | redisMulti (cmds : List (List String))
  | redisSmembers (key : String)
  | redisDel (keys : List String)
  | primeCache (key : String) (value : V)
deriving DecidableEq, Repr

/-- Effects that write cache state (redis commands sent for execution, generic
prime writes); `cacheRead`, `fetchCall` and `redisSmembers` only read. -/
def Effect.isWrite : Effect V → Bool
  | .redisMulti _ => true
  | .redisDel _ => true
  | .primeCache _ _ => true
  | _ => false

/-- Rejection of an entity-kind operation: the `'No Redis Client found.'`
error, or an error bubbled up from the store. -/
inductive QErr (E : Type) where
  | noRedisClient
  | store (e : E)
deriving DecidableEq, Repr

/-- Worker for `jsSetDedup`: walks the list keeping each element not yet
`seen`, in order. -/
def jsSetDedupAux : List String → List String → List String
  | [], _ => []
  | x :: xs, seen =>
    if x ∈ seen then jsSetDedupAux xs seen else x :: jsSetDedupAux xs (x :: seen)

/-- `new Set([...])` in JS: deduplicate keeping the first occurrence of each
element, in insertion order. -/
def jsSetDedup (l : List String) : List String :=
  jsSetDedupAux l []

theorem mem_jsSetDedupAux (a : String) :
    ∀ (l seen : List String), a ∈ jsSetDedupAux l seen ↔ a ∈ l ∧ a ∉ seen := by
  intro l
  induction l with
  | nil => intro seen; simp [jsSetDedupAux]
  | cons x xs ih =>
    intro seen
    rw [jsSetDedupAux]
    by_cases hx : x ∈ seen
    · rw [if_pos hx, ih]
      constructor
      · rintro ⟨hmem, hseen⟩
        exact ⟨List.mem_cons_of_mem _ hmem, hseen⟩
      · rintro ⟨hmem, hseen⟩
        rcases List.mem_cons.mp hmem with rfl | hmem'
        · exact absurd hx hseen
        · exact ⟨hmem', hseen⟩
    · rw [if_neg hx]
      by_cases hax : a = x
      · subst hax
        simp [hx]
      · simp only [List.mem_cons, hax, false_or, ih, List.mem_cons]

theorem mem_jsSetDedup (a : String) (l : List String) : a ∈ jsSetDedup l ↔ a ∈ l := by
  rw [jsSetDedup, mem_jsSetDedupAux]
  simp

theorem nodup_jsSetDedupAux : ∀ (l seen : List String), (jsSetDedupAux l seen).Nodup := by
  intro l
  induction l with
  | nil => intro seen; simp [jsSetDedupAux]
  | cons x xs ih =>
    intro seen
    rw [jsSetDedupAux]
    by_cases hx : x ∈ seen
    · rw [if_pos hx]; exact ih seen
    · rw [if_neg hx]
      refine List.nodup_cons.mpr ⟨?_, ih (x :: seen)⟩
      rw [mem_jsSetDedupAux]
      rintro ⟨-, habs⟩
      exact habs (List.mem_cons_self _ _)

theorem nodup_jsSetDedup (l : List String) : (jsSetDedup l).Nodup :=
  nodup_jsSetDedupAux l []

/-! ## `src/unnamed/part_000` (early `queries.js`) -/

namespace P0

/-- The module closure's environment for `part_000`: the `cache` object fields
the query functions read, plus the external `JSON.stringify` for payloads of
type `V`. -/
structure Ctx (V : Type) where
  config : Config
  hasCacheManager : Bool
  hasRedisClient : Bool
  stringify : V → String

/-- The command list `part_000`'s `cacheQueryEntityKind` hands to
`redisClient.multi`: one `sadd` per entity kind adding `queryKey` to the
kind's set, followed by a plain `set` of the stringified value (this early
version takes no TTL option). -/
def cacheQueryEntityKindCmds (ctx : Ctx V) (queryKey : String) (value : V)
    (entityKind : List String) : List (List String) :=
  let setsQueries := entityKind.map (fun kind => ctx.config.cachePrefixQueries ++ kind)
  setsQueries.map (fun s => ["sadd", s, queryKey]) ++
    [["set", queryKey, ctx.stringify value]]

/-- `part_000` `cacheQueryEntityKind(queryKey, value, ...entityKind)`:
issues one `multi` batch and resolves with the store's exec response `R`
(or rejects with the store's error).  This version has no redis-client guard. -/
def cacheQueryEntityKind (ctx : Ctx V) (queryKey : String) (value : V)
    (entityKind : List String) (execRes : Except E R) :
    Except E R × List (Effect V) :=
  (execRes, [.redisMulti (cacheQueryEntityKindCmds ctx queryKey value entityKind)])

/-- `part_000` `get` lines 57-63: with more than one store configured `ttl`
becomes the callable `(data, storeName) => config.ttl.stores[storeName].queries`,
otherwise the plain number `config.ttl.queries`. -/
def resolveQueryTTL (c : Config) : TTLValue :=
  if c.stores.length > 1 then .perStore (fun storeName => storeQueriesTTL c storeName)
  else .fixed c.ttlQueries

/-- `part_000` `get` lines 65-70: the condition under which the cache is
skipped and `fetchHandler(query)` is returned directly. -/
def cacheBypassed (ctx : Ctx V) (optsCache : Option Bool) : Bool :=
  !ctx.hasCacheManager || (resolveQueryTTL ctx.config).isNeverCache ||
    (optsCache == some false) ||
    (!ctx.config.globalEnabled && !(optsCache == some true))

/-- `part_000` `get(query, options?, fetchHandler)`.

Explicit inputs stand for the collaborators' behaviour: `cacheVal` is what
`cacheManager.get(queryKey)` would resolve with (`none` = `undefined` = miss),
`fetchRes` what `fetchHandler(query)` would resolve or reject with, and
`storeErr` an error of the priming step (redis `multi` exec or `primeCache`),
`none` when priming succeeds.  The result is the promise outcome paired with
the trace of issued effects.  The JS argument-shape sniffing (options vs
handler position) is elided: `optsCache` is the `options.cache` flag. -/
def get (ctx : Ctx V) (q : Query) (optsCache : Option Bool)
    (cacheVal : Option V) (fetchRes : Except E V) (storeErr : Option E) :
    Except E V × List (Effect V) :=
  if cacheBypassed ctx optsCache then
    (fetchRes, [.fetchCall])
  else
    let queryKey := keyToString ctx.config q
    match cacheVal with
    | some cacheResult => (.ok cacheResult, [.cacheRead queryKey])
    | none =>
      match fetchRes with
      | .error e => (.error e, [.cacheRead queryKey, .fetchCall])
      | .ok fetchResult =>
        if ctx.hasRedisClient && (storeQueriesTTL ctx.config "redis" == some 0) then
          let cmds := cacheQueryEntityKindCmds ctx queryKey fetchResult
            [q.kinds.headD "undefined"]
          ((match storeErr with | some e => .error e | none => .ok fetchResult),
            [.cacheRead queryKey, .fetchCall, .redisMulti cmds])
        else
          ((match storeErr with | some e => .error e | none => .ok fetchResult),
            [.cacheRead queryKey, .fetchCall, .primeCache queryKey fetchResult])

/-- `part_000` `cleanQueriesEntityKind(entityKind)`: direct `smembers` of the
kind's set, then one `del` of the members (arrified, so `null` becomes `[]`)
plus the set key itself; resolves with the `del` response. -/
def cleanQueriesEntityKind (ctx : Ctx V) (entityKind : String)
    (membersRes : Except E (Option (List String))) (delRes : Except E Nat) :
    Except E Nat × List (Effect V) :=
  let setQueries := ctx.config.cachePrefixQueries ++ entityKind
  match membersRes with
  | .error e => (.error e, [.redisSmembers setQueries])
  | .ok members =>
    let keys := members.getD [] ++ [setQueries]
    match delRes with
    | .error e => (.error e, [.redisSmembers setQueries, .redisDel keys])
    | .ok n => (.ok n, [.redisSmembers setQueries, .redisDel keys])

end P0

/-! ## `src/lib/queries.js` (later module) -/

namespace LibQ

/-- A datastore entity as the marshalling code sees it: its ordinary
enumerable data (`props`, kept abstract as one field), the native KEY identity
stored under the datastore `KEY` symbol (`none` = absent) and the `__dsKey__`
sidecar property (`none` = absent/`undefined`, which is falsy; a present key
is an object, hence truthy). -/
structure Entity where
  props : String
  dsKey : Option Nat
  sidecar : Option Nat
deriving DecidableEq, Repr

/-- An argument that is either a single entity or an array of entities, as
`arrify` distinguishes them. -/
inductive EntityInput where
  | single (e : Entity)
  | array (es : List Entity)
deriving DecidableEq, Repr

/-- `Object.assign({}, _entity, { __dsKey__: _entity[cache.ds.KEY] })`:
copies the entity (`Object.assign` also copies the enumerable KEY symbol) and
sets the `__dsKey__` sidecar to the native KEY identity. -/
def marshalEntity (e : Entity) : Entity :=
  { e with sidecar := e.dsKey }

/-- `marshalKeys`: arrify, map `marshalEntity`, return an array when the input
was an array, else the single mapped entity. -/
def marshalKeys : EntityInput → EntityInput
  | .single e => .single (marshalEntity e)
  | .array es => .array (es.map marshalEntity)

/-- One entity of `unMarshalKeys`: when `__dsKey__` is falsy the entity is
returned unchanged; otherwise it is copied, the KEY symbol set from
`__dsKey__`, and the sidecar deleted. -/
def unMarshalEntity (e : Entity) : Entity :=
  match e.sidecar with
  | none => e
  | some k => { e with dsKey := some k, sidecar := none }

/-- `unMarshalKeys`: arrify, map `unMarshalEntity`, restore the input shape. -/
def unMarshalKeys : EntityInput → EntityInput
  | .single e => .single (unMarshalEntity e)
  | .array es => .array (es.map unMarshalEntity)

/-- The module closure's environment for `lib/queries.js`, for payloads of
type `W` (for `wrap` the payload stored under the query key is the pair of the
marshalled entities and the query metadata). -/
structure Ctx (W : Type) where
  config : Config
  hasRedisClient : Bool
  hasCacheManagerNoRedis : Bool
  stringify : W → String

/-- Modelled from the spec: `utils.ttl.getTTL(cache, options, 'queries')` lives
in `lib/utils.js`, which is not among the sources.  Per spec §4.2 the
precedence is: explicit per-call TTL override, then the global `-1` never-cache
override for the operation kind, then (several stores) the per-store resolver
callable, then the single global numeric TTL. -/
def getTTL (c : Config) (optsTTL : Option Int) : TTLValue :=
  match optsTTL with
  | some t => .fixed t
  | none =>
    if c.ttlQueries == -1 then .fixed (-1)
    else if c.stores.length > 1 then .perStore (fun storeName => storeQueriesTTL c storeName)
    else .fixed c.ttlQueries

/-- `typeof options.ttl === 'function' ? options.ttl(null, 'redis') : options.ttl`:
the TTL number (or `undefined`) the redis options end up carrying. -/
def resolveStoreTTL : TTLValue → String → Option Int
  | .fixed t, _ => some t
  | .perStore f, storeName => f storeName

/-- The command list `lib/queries.js`'s `cacheQueryEntityKind` hands to
`redisClient.multi`: one `sadd` per entity kind, then `setex` with the TTL when
`options.ttl` is truthy, else a plain `set`. -/
def cacheQueryEntityKindCmds (ctx : Ctx W) (queryKey : String) (value : W)
    (entityKind : List String) (ttl : Option Int) : List (List String) :=
  let keysSetsQueries := entityKind.map (fun kind => ctx.config.cachePrefixQueries ++ kind)
  keysSetsQueries.map (fun keySet => ["sadd", keySet, queryKey]) ++
    [if ttlTruthy ttl then ["setex", queryKey, toString (ttl.getD 0), ctx.stringify value]
     else ["set", queryKey, ctx.stringify value]]

/-- `lib/queries.js` `cacheQueryEntityKind(queryKey, value, entityKind, options)`:
rejects with the no-redis-client error before any command when no redis client
is configured; otherwise issues one `multi` batch and resolves with the exec
response (or rejects with the store's error, surfaced unchanged). -/
def cacheQueryEntityKind (ctx : Ctx W) (queryKey : String) (value : W)
    (entityKind : List String) (ttl : Option Int) (execRes : Except E R) :
    Except (QErr E) R × List (Effect W) :=
  if !ctx.hasRedisClient then
    (.error .noRedisClient, [])
  else
    ((execRes.mapError .store),
      [.redisMulti (cacheQueryEntityKindCmds ctx queryKey value entityKind ttl)])

/-- `lib/queries.js` `cleanQueriesEntityKind(entityKinds)`: guards on the redis
client, reads every requested kind's set membership in one `multi` of
`smembers` (`membersResp` is the exec response, one entry per set, `none` for a
`null` member list), folds the non-null member lists together, deduplicates
them together with the set keys via `new Set`, and deletes the whole collection
in a single `del`, resolving with the store's reported count. -/
def cleanQueriesEntityKind (ctx : Ctx W) (entityKinds : List String)
    (membersResp : Except E (List (Option (List String)))) (delRes : Except E Nat) :
    Except (QErr E) Nat × List (Effect W) :=
  if !ctx.hasRedisClient then
    (.error .noRedisClient, [])
  else
    let setsQueries := entityKinds.map (fun entityKind => ctx.config.cachePrefixQueries ++ entityKind)
    let multiCmds := setsQueries.map (fun s => ["smembers", s])
    match membersResp with
    | .error e => (.error (.store e), [.redisMulti multiCmds])
    | .ok response =>
      let setsMembers := response.foldl
        (fun acc members => match members with | none => acc | some ms => acc ++ ms) []
      let keysToDelete := jsSetDedup (setsMembers ++ setsQueries)
      match delRes with
      | .error e => (.error (.store e), [.redisMulti multiCmds, .redisDel keysToDelete])
      | .ok res => (.ok res, [.redisMulti multiCmds, .redisDel keysToDelete])

/-- `lib/queries.js` `wrap(query, options?, fetchHandler?)` for payloads
`EntityInput × V` (the fetched tuple `[entities, info]`).

Explicit inputs stand for the collaborators: `cacheVal` is what
`cacheManager.get(queryKey, options)` resolves with, `fetchRes` the fetch
handler's outcome, `storeErr` the error of the joined priming promises
(`Promise.all` of `cacheQueryEntityKind` and, with a non-redis cache manager,
`primeCache`), `none` when they all succeed.  `optsTTL` is an explicit
per-call `options.ttl`; `getTTL` resolves the effective TTL.  On a miss with a
redis client, the fetched entities are marshalled and registered under the
query's first entity kind (`query.kinds[0]`, the string `"undefined"` when
absent, matching JS coercion) with the per-store TTL resolved for `'redis'`;
the unmarshalled `resultFetched` is additionally primed into the non-redis
cache manager when one exists.  Without a redis client the result is primed
through the generic path. -/
def wrap (ctx : Ctx (EntityInput × V)) (q : Query) (optsTTL : Option Int)
    (cacheVal : Option (EntityInput × V)) (fetchRes : Except E (EntityInput × V))
    (storeErr : Option E) :
    Except E (EntityInput × V) × List (Effect (EntityInput × V)) :=
  let ttl := getTTL ctx.config optsTTL
  let queryKey := keyToString ctx.config q
  match cacheVal with
  | some resultCached => (.ok resultCached, [.cacheRead queryKey])
  | none =>
    match fetchRes with
    | .error e => (.error e, [.cacheRead queryKey, .fetchCall])
    | .ok resultFetched =>
      if ctx.hasRedisClient then
        let redisTTL := resolveStoreTTL ttl "redis"
        let entities := marshalKeys resultFetched.1
        let cmds := cacheQueryEntityKindCmds ctx queryKey (entities, resultFetched.2)
          [q.kinds.headD "undefined"] redisTTL
        let primeEffects : List (Effect (EntityInput × V)) :=
          if ctx.hasCacheManagerNoRedis then [.primeCache queryKey resultFetched] else []
        ((match storeErr with | some e => .error e | none => .ok resultFetched),
          [.cacheRead queryKey, .fetchCall, .redisMulti cmds] ++ primeEffects)
      else
        ((match storeErr with | some e => .error e | none => .ok resultFetched),
          [.cacheRead queryKey, .fetchCall, .primeCache queryKey resultFetched])

end LibQ

/-! ## Claim theorems -/

/-- Claim C1: on a query-`get` cache miss, after the fetch handler resolves,
with a redis store configured: when the distributed-store queries TTL is the
sentinel `0`, the result is primed by one atomic `multi` batch containing the
`sadd` of the cache key into the entity kind's set plus the payload `set`, and
the generic prime path is not invoked; when that TTL is any positive number,
the result is primed through the generic prime path and no entity-kind command
is issued.  The full effect-trace equalities establish both the positive and
the negative halves of each branch. -/
theorem get_miss_priming_routes_by_redis_queries_ttl
    {V E : Type} (ctx : P0.Ctx V) (q : Query) (optsCache : Option Bool)
    (v : V) (k : String) (rest : List String)
    (hbypass : P0.cacheBypassed ctx optsCache = false)
    (hredis : ctx.hasRedisClient = true)
    (hkinds : q.kinds = k :: rest) :
    (storeQueriesTTL ctx.config "redis" = some 0 →
      P0.get ctx q optsCache none (Except.ok v : Except E V) none =
        (Except.ok v,
          [Effect.cacheRead (keyToString ctx.config q), Effect.fetchCall,
           Effect.redisMulti
             [["sadd", ctx.config.cachePrefixQueries ++ k, keyToString ctx.config q],
              ["set", keyToString ctx.config q, ctx.stringify v]]])) ∧
    (∀ t : Int, 0 < t → storeQueriesTTL ctx.config "redis" = some t →
      P0.get ctx q optsCache none (Except.ok v : Except E V) none =
        (Except.ok v,
          [Effect.cacheRead (keyToString ctx.config q), Effect.fetchCall,
           Effect.primeCache (keyToString ctx.config q) v])) := by
  constructor
  · intro h0
    simp [P0.get, P0.cacheQueryEntityKindCmds, hbypass, hredis, h0, hkinds]
  · intro t ht h0
    have hne : t ≠ 0 := by omega
    simp [P0.get, hbypass, hredis, h0, hne]

/-- Witness for `get_miss_priming_routes_by_redis_queries_ttl` at concrete
single-redis-store configurations (queries TTL `0` and `10`). -/
theorem get_miss_priming_routes_by_redis_queries_ttl_witness :
    P0.get
        { config := { cachePrefixQueries := "gcq:", stores := ["redis"],
                      globalEnabled := true, ttlQueries := 0,
                      ttlStores := some [("redis", 0)] },
          hasCacheManager := true, hasRedisClient := true, stringify := id }
        { kinds := ["Company"], qstr := "Q1" } none none
        (Except.ok "val" : Except Unit String) none =
      (Except.ok "val",
        [Effect.cacheRead "gcq:Q1", Effect.fetchCall,
         Effect.redisMulti [["sadd", "gcq:Company", "gcq:Q1"], ["set", "gcq:Q1", "val"]]]) ∧
    P0.get
        { config := { cachePrefixQueries := "gcq:", stores := ["redis"],
                      globalEnabled := true, ttlQueries := 10,
                      ttlStores := some [("redis", 10)] },
          hasCacheManager := true, hasRedisClient := true, stringify := id }
        { kinds := ["Company"], qstr := "Q1" } none none
        (Except.ok "val" : Except Unit String) none =
      (Except.ok "val",
        [Effect.cacheRead "gcq:Q1", Effect.fetchCall, Effect.primeCache "gcq:Q1" "val"]) := by
  constructor
  · exact (get_miss_priming_routes_by_redis_queries_ttl _ _ _ _ "Company" []
      (by decide) (by decide) (by decide)).1 (by decide)
  · exact (get_miss_priming_routes_by_redis_queries_ttl _ _ _ _ "Company" []
      (by decide) (by decide) (by decide)).2 10 (by decide) (by decide)

/-- Claim C4: a query `get` call with caching disabled — resolved TTL equal to
the never-cache sentinel `-1`, or per-call `cache: false`, or global caching
disabled without an explicit per-call `cache: true` — skips the cache
entirely: the fetch handler is invoked, its outcome is returned directly, and
the trace holds no cache read and no cache write. -/
theorem get_disabled_caching_skips_cache_entirely
    {V E : Type} (ctx : P0.Ctx V) (q : Query) (optsCache : Option Bool)
    (cacheVal : Option V) (fetchRes : Except E V) (storeErr : Option E)
    (hdis : (P0.resolveQueryTTL ctx.config).isNeverCache = true ∨
            optsCache = some false ∨
            (ctx.config.globalEnabled = false ∧ optsCache ≠ some true)) :
    P0.get ctx q optsCache cacheVal fetchRes storeErr = (fetchRes, [Effect.fetchCall]) := by
  have hb : P0.cacheBypassed ctx optsCache = true := by
    rcases hdis with h | h | ⟨hg, hc⟩
    · simp [P0.cacheBypassed, h]
    · simp [P0.cacheBypassed, h]
    · have : (optsCache == some true) = false := by
        cases optsCache with
        | none => rfl
        | some b => cases b with
          | true => exact absurd rfl hc
          | false => rfl
      simp [P0.cacheBypassed, hg, this]
  simp [P0.get, hb]

/-- Witness for `get_disabled_caching_skips_cache_entirely` at a concrete
configuration with queries TTL `-1`. -/
theorem get_disabled_caching_skips_cache_entirely_witness :
    P0.get
        { config := { cachePrefixQueries := "gcq:", stores := ["memory"],
                      globalEnabled := true, ttlQueries := -1, ttlStores := none },
          hasCacheManager := true, hasRedisClient := false, stringify := id }
        { kinds := ["Company"], qstr := "Q1" } none (some "cached")
        (Except.ok "fetched" : Except Unit String) none =
      (Except.ok "fetched", [Effect.fetchCall]) :=
  get_disabled_caching_skips_cache_entirely _ _ _ _ _ _ (Or.inl (by decide))

/-- Claim C6: with exactly one store configured, the TTL resolved for a query
`get` is the plain number `config.ttl.queries`; with more than one store, it
is a callable that, applied to a store's name, returns that store's configured
queries TTL from the per-store table. -/
theorem query_ttl_plain_when_single_store_callable_when_multi
    (c : Config) :
    (c.stores.length = 1 → P0.resolveQueryTTL c = TTLValue.fixed c.ttlQueries) ∧
    (1 < c.stores.length →
      (P0.resolveQueryTTL c).isCallable = true ∧
      ∀ storeName, (P0.resolveQueryTTL c).apply storeName = storeQueriesTTL c storeName) := by
  constructor
  · intro h1
    simp [P0.resolveQueryTTL, h1]
  · intro h2
    simp [P0.resolveQueryTTL, h2, TTLValue.isCallable, TTLValue.apply]

/-- Witness for `query_ttl_plain_when_single_store_callable_when_multi` at a
single-store config (TTL 600) and a two-store config (memory 1357, redis
2468). -/
theorem query_ttl_plain_when_single_store_callable_when_multi_witness :
    P0.resolveQueryTTL
        { cachePrefixQueries := "gcq:", stores := ["memory"], globalEnabled := true,
          ttlQueries := 600, ttlStores := none } = TTLValue.fixed 600 ∧
    (P0.resolveQueryTTL
        { cachePrefixQueries := "gcq:", stores := ["memory", "redis"], globalEnabled := true,
          ttlQueries := 600,
          ttlStores := some [("memory", 1357), ("redis", 2468)] }).isCallable = true ∧
    (P0.resolveQueryTTL
        { cachePrefixQueries := "gcq:", stores := ["memory", "redis"], globalEnabled := true,
          ttlQueries := 600,
          ttlStores := some [("memory", 1357), ("redis", 2468)] }).apply "memory" = some 1357 ∧
    (P0.resolveQueryTTL
        { cachePrefixQueries := "gcq:", stores := ["memory", "redis"], globalEnabled := true,
          ttlQueries := 600,
          ttlStores := some [("memory", 1357), ("redis", 2468)] }).apply "redis" = some 2468 := by
  refine ⟨(query_ttl_plain_when_single_store_callable_when_multi _).1 (by decide),
          ((query_ttl_plain_when_single_store_callable_when_multi _).2 (by decide)).1,
          Eq.trans (((query_ttl_plain_when_single_store_callable_when_multi _).2
            (by decide)).2 "memory") (by decide),
          Eq.trans (((query_ttl_plain_when_single_store_callable_when_multi _).2
            (by decide)).2 "redis") (by decide)⟩

/-- Claim C7: both `cacheQueryEntityKind` (registerQuery) and
`cleanQueriesEntityKind` (invalidateEntityKind) of `lib/queries.js` reject
with the no-redis-client error when no distributed store is configured, with
an empty effect trace — no store command is issued. -/
theorem entity_kind_ops_reject_without_distributed_store
    {W E R : Type} (ctx : LibQ.Ctx W) (queryKey : String) (v : W)
    (entityKinds : List String) (ttl : Option Int) (execRes : Except E R)
    (membersResp : Except E (List (Option (List String)))) (delRes : Except E Nat)
    (hnoredis : ctx.hasRedisClient = false) :
    LibQ.cacheQueryEntityKind ctx queryKey v entityKinds ttl execRes =
      (Except.error QErr.noRedisClient, []) ∧
    LibQ.cleanQueriesEntityKind ctx entityKinds membersResp delRes =
      (Except.error QErr.noRedisClient, []) := by
  constructor
  · simp [LibQ.cacheQueryEntityKind, hnoredis]
  · simp [LibQ.cleanQueriesEntityKind, hnoredis]

/-- Witness for `entity_kind_ops_reject_without_distributed_store` at a
concrete context without a redis client. -/
theorem entity_kind_ops_reject_without_distributed_store_witness :
    LibQ.cacheQueryEntityKind
        { config := { cachePrefixQueries := "gcq:", stores := ["memory"],
                      globalEnabled := true, ttlQueries := 600, ttlStores := none },
          hasRedisClient := false, hasCacheManagerNoRedis := true, stringify := id }
        "gcq:Q1" "val" ["User"] none (Except.ok () : Except Unit Unit) =
      (Except.error QErr.noRedisClient, []) ∧
    LibQ.cleanQueriesEntityKind
        { config := { cachePrefixQueries := "gcq:", stores := ["memory"],
                      globalEnabled := true, ttlQueries := 600, ttlStores := none },
          hasRedisClient := false, hasCacheManagerNoRedis := true,
          stringify := (id : String → String) }
        ["User"] (Except.ok [] : Except Unit (List (Option (List String)))) (Except.ok 0) =
      (Except.error QErr.noRedisClient, []) :=
  entity_kind_ops_reject_without_distributed_store _ _ _ _ _ _ _ _ rfl

/-- Claim C5: with caching active, a cache hit returns the cached payload with
only the cache read in the trace (the fetch handler is never invoked), and a
cache miss always invokes the fetch handler; this holds for both `part_000`'s
`get` and `lib/queries.js`'s `wrap`. -/
theorem hit_skips_fetch_miss_invokes_fetch
    {V E V2 E2 : Type} (ctx : P0.Ctx V) (q : Query) (optsCache : Option Bool)
    (v : V) (fetchRes : Except E V) (storeErr : Option E)
    (lctx : LibQ.Ctx (LibQ.EntityInput × V2)) (q2 : Query) (optsTTL : Option Int)
    (w : LibQ.EntityInput × V2) (fetchRes2 : Except E2 (LibQ.EntityInput × V2))
    (storeErr2 : Option E2)
    (hbypass : P0.cacheBypassed ctx optsCache = false) :
    (P0.get ctx q optsCache (some v) fetchRes storeErr =
      (Except.ok v, [Effect.cacheRead (keyToString ctx.config q)])) ∧
    (Effect.fetchCall ∈ (P0.get ctx q optsCache none fetchRes storeErr).2) ∧
    (LibQ.wrap lctx q2 optsTTL (some w) fetchRes2 storeErr2 =
      (Except.ok w, [Effect.cacheRead (keyToString lctx.config q2)])) ∧
    (Effect.fetchCall ∈ (LibQ.wrap lctx q2 optsTTL none fetchRes2 storeErr2).2) := by
  refine ⟨by simp [P0.get, hbypass], ?_, by simp [LibQ.wrap], ?_⟩
  · cases fetchRes with
    | error e => simp [P0.get, hbypass]
    | ok fv =>
      by_cases hr : ctx.hasRedisClient && (storeQueriesTTL ctx.config "redis" == some 0)
      · simp [P0.get, hbypass, hr]
      · simp [P0.get, hbypass, hr]
  · cases fetchRes2 with
    | error e => simp [LibQ.wrap]
    | ok fv =>
      by_cases hr : lctx.hasRedisClient
      · simp [LibQ.wrap, hr]
      · simp [LibQ.wrap, hr]

/-- Witness for `hit_skips_fetch_miss_invokes_fetch` at concrete contexts for
both `get` and `wrap`. -/
theorem hit_skips_fetch_miss_invokes_fetch_witness :
    (P0.get
        { config := { cachePrefixQueries := "gcq:", stores := ["memory"],
                      globalEnabled := true, ttlQueries := 600, ttlStores := none },
          hasCacheManager := true, hasRedisClient := false, stringify := id }
        { kinds := ["Company"], qstr := "Q1" } none (some "cached")
        (Except.ok "fetched" : Except Unit String) none =
      (Except.ok "cached", [Effect.cacheRead "gcq:Q1"])) ∧
    (Effect.fetchCall ∈
      (P0.get
        { config := { cachePrefixQueries := "gcq:", stores := ["memory"],
                      globalEnabled := true, ttlQueries := 600, ttlStores := none },
          hasCacheManager := true, hasRedisClient := false, stringify := id }
        { kinds := ["Company"], qstr := "Q1" } none none
        (Except.ok "fetched" : Except Unit String) none).2) ∧
    (LibQ.wrap
        { config := { cachePrefixQueries := "gcq:", stores := ["memory"],
                      globalEnabled := true, ttlQueries := 600, ttlStores := none },
          hasRedisClient := false, hasCacheManagerNoRedis := false,
          stringify := fun _ => "payload" }
        { kinds := ["Company"], qstr := "Q1" } none
        (some (LibQ.EntityInput.array [], "meta"))
        (Except.error () : Except Unit (LibQ.EntityInput × String)) none =
      (Except.ok (LibQ.EntityInput.array [], "meta"), [Effect.cacheRead "gcq:Q1"])) ∧
    (Effect.fetchCall ∈
      (LibQ.wrap
        { config := { cachePrefixQueries := "gcq:", stores := ["memory"],
                      globalEnabled := true, ttlQueries := 600, ttlStores := none },
          hasRedisClient := false, hasCacheManagerNoRedis := false,
          stringify := fun _ => "payload" }
        { kinds := ["Company"], qstr := "Q1" } none none
        (Except.error () : Except Unit (LibQ.EntityInput × String)) none).2) :=
  hit_skips_fetch_miss_invokes_fetch _ _ _ _ _ _ _ _ _ _ _ _ (by decide)

/-- Claim C8: for every `get`/`wrap` call that reaches the fetch step (its
trace holds a fetch call), if the fetch handler rejects, the rejection is
propagated to the caller unchanged and the trace holds no cache-writing
effect — nothing was written for the call's cache key before the rejection. -/
theorem fetch_rejection_propagated_without_cache_write
    {V E V2 E2 : Type} (ctx : P0.Ctx V) (q : Query) (optsCache : Option Bool)
    (cacheVal : Option V) (e : E) (storeErr : Option E)
    (lctx : LibQ.Ctx (LibQ.EntityInput × V2)) (q2 : Query) (optsTTL : Option Int)
    (cacheVal2 : Option (LibQ.EntityInput × V2)) (e2 : E2) (storeErr2 : Option E2) :
    (Effect.fetchCall ∈ (P0.get ctx q optsCache cacheVal (Except.error e) storeErr).2 →
      (P0.get ctx q optsCache cacheVal (Except.error e) storeErr).1 = Except.error e ∧
      ∀ f ∈ (P0.get ctx q optsCache cacheVal (Except.error e) storeErr).2,
        f.isWrite = false) ∧
    (Effect.fetchCall ∈
        (LibQ.wrap lctx q2 optsTTL cacheVal2 (Except.error e2) storeErr2).2 →
      (LibQ.wrap lctx q2 optsTTL cacheVal2 (Except.error e2) storeErr2).1 =
        Except.error e2 ∧
      ∀ f ∈ (LibQ.wrap lctx q2 optsTTL cacheVal2 (Except.error e2) storeErr2).2,
        f.isWrite = false) := by
  constructor
  · intro _
    by_cases hb : P0.cacheBypassed ctx optsCache
    · refine ⟨by simp [P0.get, hb], ?_⟩
      intro f hf
      simp [P0.get, hb] at hf
      simp [hf, Effect.isWrite]
    · cases cacheVal with
      | some v =>
        refine ⟨?_, ?_⟩
        · exfalso
          simp [P0.get, hb] at *
        · intro f hf
          simp [P0.get, hb] at hf
          simp [hf, Effect.isWrite]
      | none =>
        refine ⟨by simp [P0.get, hb], ?_⟩
        intro f hf
        simp [P0.get, hb] at hf
        rcases hf with h | h <;> simp [h, Effect.isWrite]
  · intro _
    cases cacheVal2 with
    | some v =>
      refine ⟨?_, ?_⟩
      · exfalso
        simp [LibQ.wrap] at *
      · intro f hf
        simp [LibQ.wrap] at hf
        simp [hf, Effect.isWrite]
    | none =>
      refine ⟨by simp [LibQ.wrap], ?_⟩
      intro f hf
      simp [LibQ.wrap] at hf
      rcases hf with h | h <;> simp [h, Effect.isWrite]

/-- Witness for `fetch_rejection_propagated_without_cache_write` at concrete
miss-then-reject calls of `get` and `wrap`. -/
theorem fetch_rejection_propagated_without_cache_write_witness :
    ((P0.get
        { config := { cachePrefixQueries := "gcq:", stores := ["memory"],
                      globalEnabled := true, ttlQueries := 600, ttlStores := none },
          hasCacheManager := true, hasRedisClient := false, stringify := id }
        { kinds := ["Company"], qstr := "Q1" } none none
        (Except.error "boom" : Except String String) none).1 = Except.error "boom" ∧
      ∀ f ∈ (P0.get
        { config := { cachePrefixQueries := "gcq:", stores := ["memory"],
                      globalEnabled := true, ttlQueries := 600, ttlStores := none },
          hasCacheManager := true, hasRedisClient := false, stringify := id }
        { kinds := ["Company"], qstr := "Q1" } none none
        (Except.error "boom" : Except String String) none).2, f.isWrite = false) ∧
    ((LibQ.wrap
        { config := { cachePrefixQueries := "gcq:", stores := ["memory"],
                      globalEnabled := true, ttlQueries := 600, ttlStores := none },
          hasRedisClient := true, hasCacheManagerNoRedis := true,
          stringify := fun _ => "payload" }
        { kinds := ["Company"], qstr := "Q1" } none none
        (Except.error "boom" : Except String (LibQ.EntityInput × String)) none).1 =
      Except.error "boom" ∧
      ∀ f ∈ (LibQ.wrap
        { config := { cachePrefixQueries := "gcq:", stores := ["memory"],
                      globalEnabled := true, ttlQueries := 600, ttlStores := none },
          hasRedisClient := true, hasCacheManagerNoRedis := true,
          stringify := fun _ => "payload" }
        { kinds := ["Company"], qstr := "Q1" } none none
        (Except.error "boom" : Except String (LibQ.EntityInput × String)) none).2,
        f.isWrite = false) := by
  have h := fetch_rejection_propagated_without_cache_write
    ({ config := { cachePrefixQueries := "gcq:", stores := ["memory"],
                   globalEnabled := true, ttlQueries := 600, ttlStores := none },
       hasCacheManager := true, hasRedisClient := false,
       stringify := (id : String → String) } : P0.Ctx String)
    ({ kinds := ["Company"], qstr := "Q1" }) none (none : Option String) "boom"
    (none : Option String)
    ({ config := { cachePrefixQueries := "gcq:", stores := ["memory"],
                   globalEnabled := true, ttlQueries := 600, ttlStores := none },
       hasRedisClient := true, hasCacheManagerNoRedis := true,
       stringify := fun _ => "payload" } : LibQ.Ctx (LibQ.EntityInput × String))
    ({ kinds := ["Company"], qstr := "Q1" }) none
    (none : Option (LibQ.EntityInput × String)) "boom" (none : Option String)
  exact ⟨h.1 (by decide), h.2 (by decide)⟩

/-- Membership in the accumulation `response.reduce((acc, members) => members
=== null ? acc : [...acc, ...members], [])`: an element is collected iff it
was in the accumulator or in one of the non-null member lists. -/
theorem mem_collect_members (x : String) (resp : List (Option (List String))) :
    ∀ acc : List String,
      (x ∈ resp.foldl
        (fun acc members => match members with | none => acc | some ms => acc ++ ms) acc ↔
      x ∈ acc ∨ ∃ l, some l ∈ resp ∧ x ∈ l) := by
  induction resp with
  | nil => intro acc; simp
  | cons hd tl ih =>
    intro acc
    cases hd with
    | none =>
      rw [List.foldl_cons]
      simp only [ih]
      constructor
      · rintro (h | ⟨l, hl, hx⟩)
        · exact Or.inl h
        · exact Or.inr ⟨l, List.mem_cons_of_mem _ hl, hx⟩
      · rintro (h | ⟨l, hl, hx⟩)
        · exact Or.inl h
        · rcases List.mem_cons.mp hl with heq | hmem
          · exact absurd heq.symm (by simp)
          · exact Or.inr ⟨l, hmem, hx⟩
    | some ms =>
      rw [List.foldl_cons]
      simp only [ih]
      constructor
      · rintro (h | ⟨l, hl, hx⟩)
        · rcases List.mem_append.mp h with h' | h'
          · exact Or.inl h'
          · exact Or.inr ⟨ms, List.mem_cons_self _ _, h'⟩
        · exact Or.inr ⟨l, List.mem_cons_of_mem _ hl, hx⟩
      · rintro (h | ⟨l, hl, hx⟩)
        · exact Or.inl (List.mem_append.mpr (Or.inl h))
        · rcases List.mem_cons.mp hl with heq | hmem
          · cases heq
            exact Or.inl (List.mem_append.mpr (Or.inr hx))
          · exact Or.inr ⟨l, hmem, hx⟩

/-- Claim C2: for a non-empty list of entity kinds, `cleanQueriesEntityKind`
reads every requested kind's set membership in one `multi` of `smembers`,
unions the member keys of all requested kinds together with the set keys
themselves into one deduplicated collection, deletes that collection in a
single batched `del`, and resolves with the store's reported delete count.
The deduplicated collection is characterized by its `Nodup` property and its
membership law. -/
theorem clean_queries_entity_kind_unions_dedups_deletes
    {W E : Type} (ctx : LibQ.Ctx W) (entityKinds : List String)
    (response : List (Option (List String))) (n : Nat)
    (hredis : ctx.hasRedisClient = true)
    (_hne : entityKinds ≠ []) :
    LibQ.cleanQueriesEntityKind ctx entityKinds
        (Except.ok response : Except E (List (Option (List String)))) (Except.ok n) =
      (Except.ok n,
        [Effect.redisMulti
          ((entityKinds.map (fun k => ctx.config.cachePrefixQueries ++ k)).map
            (fun s => ["smembers", s])),
         Effect.redisDel
          (jsSetDedup
            (response.foldl
              (fun acc members => match members with | none => acc | some ms => acc ++ ms) [] ++
             entityKinds.map (fun k => ctx.config.cachePrefixQueries ++ k)))]) ∧
    (jsSetDedup
      (response.foldl
        (fun acc members => match members with | none => acc | some ms => acc ++ ms) [] ++
       entityKinds.map (fun k => ctx.config.cachePrefixQueries ++ k))).Nodup ∧
    (∀ x,
      x ∈ jsSetDedup
        (response.foldl
          (fun acc members => match members with | none => acc | some ms => acc ++ ms) [] ++
         entityKinds.map (fun k => ctx.config.cachePrefixQueries ++ k)) ↔
      ((∃ l, some l ∈ response ∧ x ∈ l) ∨
        x ∈ entityKinds.map (fun k => ctx.config.cachePrefixQueries ++ k))) := by
  refine ⟨?_, nodup_jsSetDedup _, ?_⟩
  · simp [LibQ.cleanQueriesEntityKind, hredis]
  · intro x
    rw [mem_jsSetDedup, List.mem_append, mem_collect_members]
    simp

/-- Witness for `clean_queries_entity_kind_unions_dedups_deletes`: two kinds
whose sets share the member `"gcq:q2"` and where the second set is `null`;
the batched delete holds each key once. -/
theorem clean_queries_entity_kind_unions_dedups_deletes_witness :
    LibQ.cleanQueriesEntityKind
        { config := { cachePrefixQueries := "gcq:", stores := ["redis"],
                      globalEnabled := true, ttlQueries := 0,
                      ttlStores := some [("redis", 0)] },
          hasRedisClient := true, hasCacheManagerNoRedis := false,
          stringify := (id : String → String) }
        ["User", "Post"]
        (Except.ok [some ["gcq:q1", "gcq:q2", "gcq:q2"], none] :
          Except Unit (List (Option (List String)))) (Except.ok 7) =
      (Except.ok 7,
        [Effect.redisMulti [["smembers", "gcq:User"], ["smembers", "gcq:Post"]],
         Effect.redisDel ["gcq:q1", "gcq:q2", "gcq:User", "gcq:Post"]]) :=
  (clean_queries_entity_kind_unions_dedups_deletes _ ["User", "Post"]
    [some ["gcq:q1", "gcq:q2", "gcq:q2"], none] 7 rfl (by decide)).1

/-- Claim C3 counterexample: with a distributed store configured and the TTL
option `0` explicitly given, `cacheQueryEntityKind` writes the payload with a
plain `set` (JS truthiness treats `0` as absent), not with `setex` carrying
the given TTL as the claim's reading demands; the second conjunct checks no
command of the issued batch is a `setex`. -/
theorem register_query_given_ttl_zero_writes_plain_set :
    LibQ.cacheQueryEntityKind
        { config := { cachePrefixQueries := "gcq:", stores := ["redis"],
                      globalEnabled := true, ttlQueries := 0,
                      ttlStores := some [("redis", 0)] },
          hasRedisClient := true, hasCacheManagerNoRedis := false,
          stringify := (id : String → String) }
        "gcq:Q1" "val" ["User"] (some 0) (Except.ok () : Except Unit Unit) =
      (Except.ok (),
        [Effect.redisMulti [["sadd", "gcq:User", "gcq:Q1"], ["set", "gcq:Q1", "val"]]]) ∧
    ∀ cmd ∈ [["sadd", "gcq:User", "gcq:Q1"], ["set", "gcq:Q1", "val"]],
      cmd.head? ≠ some "setex" := by
  decide

/-- Claim C3 (amended): `cacheQueryEntityKind` issues one `multi` transaction
that `sadd`s the cache key into every requested kind's set and writes the
serialized payload under the cache key — with `setex` and the TTL when a
nonzero TTL is given, and with a plain `set` (no expiry) when no TTL is given
or the given TTL is `0` (the cache-indefinitely sentinel; JS truthiness). -/
theorem register_query_one_multi_sadd_every_kind_setex_when_nonzero_ttl
    {W E R : Type} (ctx : LibQ.Ctx W) (queryKey : String) (v : W)
    (entityKinds : List String) (ttl : Option Int) (r : R)
    (hredis : ctx.hasRedisClient = true) (_hne : entityKinds ≠ []) :
    LibQ.cacheQueryEntityKind ctx queryKey v entityKinds ttl (Except.ok r : Except E R) =
      (Except.ok r,
        [Effect.redisMulti
          (entityKinds.map
            (fun kind => ["sadd", ctx.config.cachePrefixQueries ++ kind, queryKey]) ++
           [match ttl with
            | some t =>
              if t = 0 then ["set", queryKey, ctx.stringify v]
              else ["setex", queryKey, toString t, ctx.stringify v]
            | none => ["set", queryKey, ctx.stringify v]])]) := by
  cases ttl with
  | none =>
    simp [LibQ.cacheQueryEntityKind, LibQ.cacheQueryEntityKindCmds, hredis, ttlTruthy,
      Except.mapError]
  | some t =>
    by_cases ht : t = 0
    · simp [LibQ.cacheQueryEntityKind, LibQ.cacheQueryEntityKindCmds, hredis, ttlTruthy, ht,
        Except.mapError]
    · simp [LibQ.cacheQueryEntityKind, LibQ.cacheQueryEntityKindCmds, hredis, ttlTruthy, ht,
        Except.mapError]

/-- Witness for `register_query_one_multi_sadd_every_kind_setex_when_nonzero_ttl`
at two entity kinds and the TTL `57`. -/
theorem register_query_one_multi_sadd_every_kind_setex_when_nonzero_ttl_witness :
    LibQ.cacheQueryEntityKind
        { config := { cachePrefixQueries := "gcq:", stores := ["redis"],
                      globalEnabled := true, ttlQueries := 600,
                      ttlStores := some [("redis", 57)] },
          hasRedisClient := true, hasCacheManagerNoRedis := false,
          stringify := (id : String → String) }
        "gcq:Q1" "val" ["User", "Post"] (some 57) (Except.ok () : Except Unit Unit) =
      (Except.ok (),
        [Effect.redisMulti
          [["sadd", "gcq:User", "gcq:Q1"], ["sadd", "gcq:Post", "gcq:Q1"],
           ["setex", "gcq:Q1", "57", "val"]]]) :=
  register_query_one_multi_sadd_every_kind_setex_when_nonzero_ttl
    _ _ _ _ _ _ rfl (by decide)

/-- The `(set, member)` pairs of all `sadd` commands of all `multi` batches in
a trace: which cache keys were registered in which entity-kind sets. -/
def saddOfCmd : List String → Option (String × String)
  | [c, s, m] => if c = "sadd" then some (s, m) else none
  | _ => none

/-- All `sadd` registrations issued in an effect trace. -/
def saddPairs {V : Type} (effs : List (Effect V)) : List (String × String) :=
  effs.foldr
    (fun e acc =>
      match e with
      | .redisMulti cmds => cmds.filterMap saddOfCmd ++ acc
      | _ => acc) []

/-- Claim C9 counterexample: a query specification targeting the two entity
kinds `"A"` and `"B"`, primed on a miss through the entity-kind index
(redis TTL `0`), has its cache key registered only in the set of `"A"`
(`query.kinds[0]`), not in the set of `"B"`. -/
theorem miss_priming_skips_second_entity_kind :
    ({ kinds := ["A", "B"], qstr := "Q1" } : Query).kinds = ["A", "B"] ∧
    P0.get
        { config := { cachePrefixQueries := "gcq:", stores := ["redis"],
                      globalEnabled := true, ttlQueries := 0,
                      ttlStores := some [("redis", 0)] },
          hasCacheManager := true, hasRedisClient := true,
          stringify := (id : String → String) }
        { kinds := ["A", "B"], qstr := "Q1" } none none
        (Except.ok "val" : Except Unit String) none =
      (Except.ok "val",
        [Effect.cacheRead "gcq:Q1", Effect.fetchCall,
         Effect.redisMulti [["sadd", "gcq:A", "gcq:Q1"], ["set", "gcq:Q1", "val"]]]) ∧
    saddPairs
      (P0.get
        { config := { cachePrefixQueries := "gcq:", stores := ["redis"],
                      globalEnabled := true, ttlQueries := 0,
                      ttlStores := some [("redis", 0)] },
          hasCacheManager := true, hasRedisClient := true,
          stringify := (id : String → String) }
        { kinds := ["A", "B"], qstr := "Q1" } none none
        (Except.ok "val" : Except Unit String) none).2 = [("gcq:A", "gcq:Q1")] ∧
    ("gcq:B", "gcq:Q1") ∉
      saddPairs
        (P0.get
          { config := { cachePrefixQueries := "gcq:", stores := ["redis"],
                        globalEnabled := true, ttlQueries := 0,
                        ttlStores := some [("redis", 0)] },
            hasCacheManager := true, hasRedisClient := true,
            stringify := (id : String → String) }
          { kinds := ["A", "B"], qstr := "Q1" } none none
          (Except.ok "val" : Except Unit String) none).2 := by
  decide

/-- Claim C9 (amended): whenever a query result is primed through the
entity-kind index on a cache miss, the cache key is registered under exactly
the query specification's first entity kind (`query.kinds[0]`): the trace's
`sadd` registrations are exactly the pair of that kind's set and the cache
key, even though a specification may list further kinds. -/
theorem miss_priming_registers_under_first_kind_only
    {V E : Type} (ctx : P0.Ctx V) (q : Query) (optsCache : Option Bool)
    (v : V) (k : String) (rest : List String) (storeErr : Option E)
    (hbypass : P0.cacheBypassed ctx optsCache = false)
    (hredis : ctx.hasRedisClient = true)
    (httl : storeQueriesTTL ctx.config "redis" = some 0)
    (hkinds : q.kinds = k :: rest) :
    saddPairs (P0.get ctx q optsCache none (Except.ok v) storeErr).2 =
      [(ctx.config.cachePrefixQueries ++ k, keyToString ctx.config q)] := by
  simp [P0.get, hbypass, hredis, httl, hkinds, P0.cacheQueryEntityKindCmds,
    saddPairs, saddOfCmd]

/-- Witness for `miss_priming_registers_under_first_kind_only` at the
two-kind query of the counterexample. -/
theorem miss_priming_registers_under_first_kind_only_witness :
    saddPairs
      (P0.get
        { config := { cachePrefixQueries := "gcq:", stores := ["redis"],
                      globalEnabled := true, ttlQueries := 0,
                      ttlStores := some [("redis", 0)] },
          hasCacheManager := true, hasRedisClient := true,
          stringify := (id : String → String) }
        { kinds := ["A", "B"], qstr := "Q1" } none none
        (Except.ok "val" : Except Unit String) (some ())).2 =
      [("gcq:A", "gcq:Q1")] :=
  miss_priming_registers_under_first_kind_only _ _ _ _ "A" ["B"] _
    (by decide) (by decide) (by decide) (by decide)

/-- The entities an input holds, as `arrify` lists them. -/
def entitiesOf : LibQ.EntityInput → List LibQ.Entity
  | .single e => [e]
  | .array es => es

/-- Whether an input is the array shape. -/
def isArrayShape : LibQ.EntityInput → Bool
  | .single _ => false
  | .array _ => true

/-- The input with every entity's `__dsKey__` sidecar removed, shape kept. -/
def stripSidecar : LibQ.EntityInput → LibQ.EntityInput
  | .single e => .single { e with sidecar := none }
  | .array es => .array (es.map (fun e => { e with sidecar := none }))

theorem unMarshal_marshal_entity (e : LibQ.Entity) :
    LibQ.unMarshalEntity (LibQ.marshalEntity e) = { e with sidecar := none } := by
  cases h : e.dsKey with
  | none => simp [LibQ.marshalEntity, LibQ.unMarshalEntity, h]
  | some k => simp [LibQ.marshalEntity, LibQ.unMarshalEntity, h]

/-- Claim C10: for every entity or array of entities whose entities all carry
a native KEY identity, `unMarshalKeys` after `marshalKeys` yields the input
with identical native KEY identities and no `__dsKey__` sidecar; both
transforms preserve the input's shape (array to same-length array, single to
single); and `unMarshalKeys` leaves inputs without sidecars unchanged. -/
theorem marshal_unmarshal_roundtrip_preserves_key_identity
    (x : LibQ.EntityInput)
    (hkeys : ∀ e ∈ entitiesOf x, e.dsKey.isSome = true) :
    LibQ.unMarshalKeys (LibQ.marshalKeys x) = stripSidecar x ∧
    ((entitiesOf (LibQ.unMarshalKeys (LibQ.marshalKeys x))).map LibQ.Entity.dsKey =
      (entitiesOf x).map LibQ.Entity.dsKey) ∧
    (∀ e ∈ entitiesOf (LibQ.unMarshalKeys (LibQ.marshalKeys x)), e.sidecar = none) ∧
    isArrayShape (LibQ.marshalKeys x) = isArrayShape x ∧
    isArrayShape (LibQ.unMarshalKeys x) = isArrayShape x ∧
    (entitiesOf (LibQ.marshalKeys x)).length = (entitiesOf x).length ∧
    (entitiesOf (LibQ.unMarshalKeys x)).length = (entitiesOf x).length ∧
    (∀ y : LibQ.EntityInput,
      (∀ e ∈ entitiesOf y, e.sidecar = none) → LibQ.unMarshalKeys y = y) := by
  have hround : LibQ.unMarshalKeys (LibQ.marshalKeys x) = stripSidecar x := by
    cases x with
    | single e =>
      simp [LibQ.marshalKeys, LibQ.unMarshalKeys, stripSidecar, unMarshal_marshal_entity]
    | array es =>
      simp only [LibQ.marshalKeys, LibQ.unMarshalKeys, stripSidecar, List.map_map]
      exact congrArg _ (List.map_congr_left (fun e _ => unMarshal_marshal_entity e))
  refine ⟨hround, ?_, ?_, ?_, ?_, ?_, ?_, ?_⟩
  · rw [hround]
    cases x with
    | single e => simp [stripSidecar, entitiesOf]
    | array es => simp [stripSidecar, entitiesOf, List.map_map, Function.comp]
  · rw [hround]
    cases x with
    | single e => simp [stripSidecar, entitiesOf]
    | array es =>
      intro e he
      simp only [stripSidecar, entitiesOf, List.mem_map] at he
      obtain ⟨e', -, rfl⟩ := he
      rfl
  · cases x <;> rfl
  · cases x <;> rfl
  · cases x <;> simp [LibQ.marshalKeys, entitiesOf]
  · cases x <;> simp [LibQ.unMarshalKeys, entitiesOf]
  · intro y hy
    cases y with
    | single e =>
      have := hy e (by simp [entitiesOf])
      simp [LibQ.unMarshalKeys, LibQ.unMarshalEntity, this]
    | array es =>
      simp only [LibQ.unMarshalKeys]
      refine congrArg _ ?_
      have : ∀ e ∈ es, LibQ.unMarshalEntity e = id e := by
        intro e he
        have hs := hy e (by simpa [entitiesOf] using he)
        simp [LibQ.unMarshalEntity, hs]
      rw [List.map_congr_left this, List.map_id]

/-- Witness for `marshal_unmarshal_roundtrip_preserves_key_identity` at a
two-entity array whose entities carry the native keys `1` and `2` (the second
with a stale sidecar). -/
theorem marshal_unmarshal_roundtrip_preserves_key_identity_witness :
    LibQ.unMarshalKeys
        (LibQ.marshalKeys
          (LibQ.EntityInput.array
            [{ props := "p1", dsKey := some 1, sidecar := none },
             { props := "p2", dsKey := some 2, sidecar := some 9 }])) =
      LibQ.EntityInput.array
        [{ props := "p1", dsKey := some 1, sidecar := none },
         { props := "p2", dsKey := some 2, sidecar := none }] :=
  (marshal_unmarshal_roundtrip_preserves_key_identity
    (LibQ.EntityInput.array
      [{ props := "p1", dsKey := some 1, sidecar := none },
       { props := "p2", dsKey := some 2, sidecar := some 9 }]) (by decide)).1

end GstoreCache
